import Mathlib

/-!
# Verification of the Reversi/Othello board engine (reversi.py)

This file gives a shallow embedding of the `ReversiGame` class of
`reversi.py` and proves or refutes the specification claims about it.

The Python object state is modelled by the structure `Game`.  Cells hold
integers (1 = current player's piece, -1 = opponent's piece, 0 = empty),
the grid is a list of rows, and the legal-move cache `move_dict` is stored
row-major as a list of lists of capture lists (the entry at `(i, j)` is
the list of coordinates that would be flipped by playing at `(i, j)`),
together with the cached `possible_moves` list.

Python exceptions are modelled by `PyError`; operations that can raise
return `Except (PyError × Game) Game`, the error carrying the state the
object had at the moment of the raise.
-/

/-- The three Python exception kinds the engine can raise:
`ValueError` (bad dimensions / illegal move), `IndexError` (out of
bounds), and `TypeError` (ordering comparison against `None`). -/
inductive PyError where
  | valueError : PyError
  | indexError : PyError
  | typeError : PyError
deriving DecidableEq, Repr

/-- The state of a `ReversiGame` object: board dimensions, the grid
(relative to the current player), the current player's absolute identity
(1 or -1), and the cached legal-move data (`move_dict` and
`possible_moves`). -/
structure Game where
  height : Nat
  width : Nat
  board : List (List Int)
  curr_player : Int
  move_dict : List (List (List (Nat × Nat)))
  possible_moves : List (Nat × Nat)
deriving DecidableEq, Repr

instance {ε α : Type} [DecidableEq ε] [DecidableEq α] : DecidableEq (Except ε α) := by
  intro a b
  cases a <;> cases b
  case error.error e e' =>
    exact if h : e = e' then .isTrue (by rw [h]) else .isFalse (by intro hc; cases hc; exact h rfl)
  case error.ok e a' => exact .isFalse (by intro hc; cases hc)
  case ok.error a' e => exact .isFalse (by intro hc; cases hc)
  case ok.ok a' b' =>
    exact if h : a' = b' then .isTrue (by rw [h]) else .isFalse (by intro hc; cases hc; exact h rfl)

/-- Read cell `(x, y)` of a grid, with default 0 (used only at
coordinates known to be in range, mirroring `self.board[x][y]`). -/
def cellNat (b : List (List Int)) (x y : Nat) : Int :=
  (b.getD x []).getD y 0

/-- Read a cell at `Int` coordinates (the cursor of the direction walk is
only ever dereferenced while it is on the board, so `toNat` is faithful). -/
def cellAtI (b : List (List Int)) (i j : Int) : Int :=
  cellNat b i.toNat j.toNat

/-- Write value `v` into cell `(x, y)`: `self.board[x][y] = v` for
coordinates already validated to be in range. -/
def setCellNat (b : List (List Int)) (x y : Nat) (v : Int) : List (List Int) :=
  b.set x ((b.getD x []).set y v)

/-- Resolve a Python list index (negative indices count from the end);
`none` models an `IndexError`. -/
def pyIndex (len : Nat) (i : Int) : Option Nat :=
  let a : Int := if i < 0 then i + len else i
  if 0 ≤ a ∧ a < len then some a.toNat else none

/-- `self.board[r][c] = v` with full Python index semantics (negative
indices, `IndexError` on a bad row or column). -/
def setCellPy (b : List (List Int)) (r c : Int) (v : Int) : Option (List (List Int)) :=
  match pyIndex b.length r with
  | none => none
  | some ri =>
    let row := b.getD ri []
    match pyIndex row.length c with
    | none => none
    | some ci => some (b.set ri (row.set ci v))

/-- `flip_board`: negate every cell of the grid. -/
def flipBoard (b : List (List Int)) : List (List Int) :=
  b.map (fun r => r.map (fun v => -v))

/-- `sum([sum(x) for x in self.board])`. -/
def boardSum (b : List (List Int)) : Int :=
  (b.map (fun r => r.sum)).sum

/-- Number of cells holding the current player's pieces (value 1). -/
def countMine (b : List (List Int)) : Nat :=
  (b.map (fun r => r.count 1)).sum

/-- Number of cells holding the opponent's pieces (value -1). -/
def countTheirs (b : List (List Int)) : Nat :=
  (b.map (fun r => r.count (-1))).sum

/-- The test `cursor_i < 0 or cursor_i > height-1 or cursor_j < 0 or
cursor_j > width-1` of `update_move_dict`. -/
def offBoard (hh ww : Nat) (i j : Int) : Bool :=
  i < 0 || (hh : Int) - 1 < i || j < 0 || (ww : Int) - 1 < j

/-- The eight compass directions, in the order listed in
`update_move_dict`. -/
def directions : List (Int × Int) :=
  [(-1, -1), (-1, 0), (-1, 1), (0, -1), (0, 1), (1, -1), (1, 0), (1, 1)]

/-- The `while self.board[cursor_i][cursor_j] == -1` walk of
`update_move_dict`: collect the run of opponent pieces starting at the
cursor, stopping early (without collecting the current cell) when the
next step would leave the board.  Returns the collected cells and the
final cursor.  The fuel argument strictly exceeds the number of cells on
the board, so it never runs out while the cursor stays on the board. -/
def walkRun (b : List (List Int)) (hh ww : Nat) (dh dv : Int) :
    Nat → Int → Int → List (Int × Int) × (Int × Int)
  | 0, ci, cj => ([], (ci, cj))
  | fuel + 1, ci, cj =>
    if cellAtI b ci cj = -1 then
      if offBoard hh ww (ci + dh) (cj + dv) then ([], (ci, cj))
      else
        let r := walkRun b hh ww dh dv fuel (ci + dh) (cj + dv)
        ((ci, cj) :: r.1, r.2)
    else ([], (ci, cj))

/-- The contribution of one direction `(dh, dv)` to the capture set of
empty cell `(i, j)`: skip the direction if the first step leaves the
board; otherwise walk over opponent pieces and keep the collected run
exactly when the walk ends on one of the current player's pieces. -/
def dirCapture (b : List (List Int)) (hh ww : Nat) (i j : Nat) (dh dv : Int) :
    List (Nat × Nat) :=
  let ci : Int := (i : Int) + dh
  let cj : Int := (j : Int) + dv
  if offBoard hh ww ci cj then []
  else
    let r := walkRun b hh ww dh dv (hh * ww + 1) ci cj
    if cellAtI b r.2.1 r.2.2 = 1 then r.1.map (fun p => (p.1.toNat, p.2.toNat))
    else []

/-- The capture set of cell `(i, j)`: the union over the eight
directions, and empty whenever the cell is occupied. -/
def cellCaptures (b : List (List Int)) (hh ww : Nat) (i j : Nat) : List (Nat × Nat) :=
  if cellNat b i j = 0 then
    directions.foldl (fun acc d => acc ++ dirCapture b hh ww i j d.1 d.2) []
  else []

/-- The freshly recomputed `move_dict` for a grid: entry `(i, j)` is the
capture set of `(i, j)`, stored row-major. -/
def computeMoveDict (hh ww : Nat) (b : List (List Int)) :
    List (List (List (Nat × Nat))) :=
  (List.range hh).map fun i => (List.range ww).map fun j => cellCaptures b hh ww i j

/-- The freshly recomputed `possible_moves` for a grid: the row-major
list of coordinates whose capture set is non-empty. -/
def computePossible (hh ww : Nat) (b : List (List Int)) : List (Nat × Nat) :=
  ((List.range hh).flatMap fun i => (List.range ww).map fun j => (i, j)).filter
    fun p => !(cellCaptures b hh ww p.1 p.2).isEmpty

/-- `update_move_dict`: recompute both caches from the current grid. -/
def updateMoveDict (g : Game) : Game :=
  { g with
    move_dict := computeMoveDict g.height g.width g.board
    possible_moves := computePossible g.height g.width g.board }

/-- Look up `self.move_dict[(i, j)]` in the cached row-major store. -/
def dictGet (d : List (List (List (Nat × Nat)))) (i j : Nat) : List (Nat × Nat) :=
  (d.getD i []).getD j []

/-- The initial all-empty `move_dict` built by `__init__` before the
first `update_move_dict` call. -/
def dict0 (hh ww : Nat) : List (List (List (Nat × Nat))) :=
  (List.range hh).map fun _ => (List.range ww).map fun _ => []

/-- The four initial centre-piece assignments of `__init__`, with Python
index semantics; `none` models the `IndexError` a degenerate grid raises. -/
def placeInitial (h w : Int) : Option (List (List Int)) :=
  let b0 : List (List Int) := List.replicate h.toNat (List.replicate w.toNat 0)
  match setCellPy b0 (h.fdiv 2 - 1) (w.fdiv 2 - 1) 1 with
  | none => none
  | some b1 =>
    match setCellPy b1 (h.fdiv 2) (w.fdiv 2 - 1) (-1) with
    | none => none
    | some b2 =>
      match setCellPy b2 (h.fdiv 2 - 1) (w.fdiv 2) (-1) with
      | none => none
      | some b3 => setCellPy b3 (h.fdiv 2) (w.fdiv 2) 1

/-- `ReversiGame.__init__(height, width)`: reject odd dimensions with
`ValueError`, build the grid with the four centre pieces (raising
`IndexError` on degenerate sizes), set the first player, and compute the
initial legal-move caches. -/
def initGame (h w : Int) : Except PyError Game :=
  if h % 2 ≠ 0 ∨ w % 2 ≠ 0 then .error .valueError
  else
    match placeInitial h w with
    | none => .error .indexError
    | some b =>
      .ok (updateMoveDict
        { height := h.toNat, width := w.toNat, board := b, curr_player := 1,
          move_dict := dict0 h.toNat w.toNat, possible_moves := [] })

/-- A placeholder state, used only to give total extraction functions a
value on the error branch. -/
def emptyGame : Game :=
  { height := 0, width := 0, board := [], curr_player := 1,
    move_dict := [], possible_moves := [] }

/-- The game produced by a successful `__init__` (callers only use this
at dimensions where construction is proved to succeed). -/
def gameOfInit (h w : Int) : Game :=
  match initGame h w with
  | .ok g => g
  | .error _ => emptyGame

/-- A Python `x < b` comparison where `x` may be `None`: comparing
`None` with an integer raises `TypeError`. -/
def pyLt (g : Game) : Option Int → Int → Except (PyError × Game) Bool
  | none, _ => .error (.typeError, g)
  | some x, b => .ok (decide (x < b))

/-- A Python `x > b` comparison where `x` may be `None`. -/
def pyGt (g : Game) : Option Int → Int → Except (PyError × Game) Bool
  | none, _ => .error (.typeError, g)
  | some x, b => .ok (decide (b < x))

/-- The short-circuited bounds test of `make_move`:
`i < 0 or i > height-1 or j < 0 or j > width-1`, evaluated left to
right, stopping at the first true comparison; each comparison can raise
`TypeError` on a `None` operand. -/
def oobCheck (g : Game) (i j : Option Int) : Except (PyError × Game) Bool :=
  match pyLt g i 0 with
  | .error e => .error e
  | .ok true => .ok true
  | .ok false =>
    match pyGt g i ((g.height : Int) - 1) with
    | .error e => .error e
    | .ok true => .ok true
    | .ok false =>
      match pyLt g j 0 with
      | .error e => .error e
      | .ok true => .ok true
      | .ok false => pyGt g j ((g.width : Int) - 1)

/-- `make_move(i, j)`.  The pair `(None, None)` is the pass sentinel:
flip the grid and toggle the player (the caches are left untouched by
the source).  Otherwise run the bounds test `oobCheck`, raising
`IndexError` when it is true; then raise `ValueError` when the cached
capture set at `(i, j)` is empty; otherwise place the piece, flip the
captured cells, re-orient the grid, recompute the caches and toggle the
player. -/
def makeMove (g : Game) (i j : Option Int) : Except (PyError × Game) Game :=
  match i, j with
  | none, none =>
    .ok { g with board := flipBoard g.board, curr_player := -g.curr_player }
  | iOpt, jOpt =>
    match oobCheck g iOpt jOpt with
    | .error e => .error e
    | .ok true => .error (.indexError, g)
    | .ok false =>
      match iOpt, jOpt with
      | some x, some y =>
        let caps := dictGet g.move_dict x.toNat y.toNat
        if caps = [] then .error (.valueError, g)
        else
          let b1 := setCellNat g.board x.toNat y.toNat 1
          let b2 := caps.foldl (fun b c => setCellNat b c.1 c.2 1) b1
          let g1 := updateMoveDict { g with board := flipBoard b2 }
          .ok { g1 with curr_player := -g.curr_player }
      | _, _ =>
        -- unreachable: a None coordinate already failed a bounds comparison
        .error (.typeError, g)

/-- `check_winner`: when the cached move list is empty, probe the
opponent by flipping the grid and recomputing, then flip back and
recompute again; when neither side has moves, the winner is decided by
the sign of the grid sum in the current orientation. -/
def checkWinner (g : Game) : (Bool × Int) × Game :=
  if g.possible_moves = [] then
    let g1 := updateMoveDict { g with board := flipBoard g.board }
    let oppOut := g1.possible_moves = []
    let g2 := updateMoveDict { g1 with board := flipBoard g1.board }
    if oppOut then
      let s := boardSum g2.board
      if 0 < s then ((true, g2.curr_player), g2)
      else if s < 0 then ((true, -g2.curr_player), g2)
      else ((true, 0), g2)
    else ((false, 0), g2)
  else ((false, 0), g)

/-- Apply a list of `make_move` calls in order, stopping at the first
raised exception. -/
def applyMoves (g : Game) : List (Option Int × Option Int) → Except (PyError × Game) Game
  | [] => .ok g
  | m :: ms => do
    let g1 ← makeMove g m.1 m.2
    applyMoves g1 ms

/-- The state reached by a list of `make_move` calls (total helper; on
an exception it returns the state at the raise). -/
def runMoves (g : Game) (ms : List (Option Int × Option Int)) : Game :=
  match applyMoves g ms with
  | .ok s => s
  | .error p => p.2

/-! ## Basic lemmas about grid operations -/

theorem flipBoard_flipBoard (b : List (List Int)) : flipBoard (flipBoard b) = b := by
  simp [flipBoard, List.map_map, Function.comp_def]

theorem cellNat_flipBoard (b : List (List Int)) (x y : Nat) :
    cellNat (flipBoard b) x y = -cellNat b x y := by
  unfold cellNat flipBoard
  simp only [List.getD_eq_getElem?_getD, List.getElem?_map]
  cases hb : b[x]? with
  | none => simp
  | some r =>
    simp only [Option.map_some', Option.getD_some, List.getElem?_map]
    cases hr : r[y]? with
    | none => simp
    | some v => simp

theorem length_setCellNat (b : List (List Int)) (x y : Nat) (v : Int) :
    (setCellNat b x y v).length = b.length := by
  simp [setCellNat]

theorem rows_setCellNat {b : List (List Int)} {w : Nat} (hw : ∀ r ∈ b, r.length = w)
    (x y : Nat) (v : Int) : ∀ r ∈ setCellNat b x y v, r.length = w := by
  intro r hr
  by_cases hx : x < b.length
  · rcases List.mem_or_eq_of_mem_set hr with h | h
    · exact hw r h
    · subst h
      rw [List.length_set]
      refine hw _ ?_
      rw [List.getD_eq_getElem?_getD, List.getElem?_eq_getElem hx]
      exact List.getElem_mem hx
  · rw [setCellNat, List.set_eq_of_length_le (Nat.le_of_not_lt hx)] at hr
    exact hw r hr

theorem cellNat_setCellNat_self (b : List (List Int)) {x y : Nat} (v : Int)
    (hx : x < b.length) (hy : y < (b.getD x []).length) :
    cellNat (setCellNat b x y v) x y = v := by
  simp only [cellNat, setCellNat, List.getD_eq_getElem?_getD] at hy ⊢
  rw [List.getElem?_set_self hx, Option.getD_some, List.getElem?_set_self hy, Option.getD_some]

theorem cellNat_setCellNat_ne (b : List (List Int)) {x y x' y' : Nat} (v : Int)
    (h : (x', y') ≠ (x, y)) :
    cellNat (setCellNat b x y v) x' y' = cellNat b x' y' := by
  by_cases hlt : x < b.length
  · by_cases hx : x = x'
    · subst hx
      have hy : y ≠ y' := by
        intro hc
        exact h (by rw [hc])
      simp only [cellNat, setCellNat, List.getD_eq_getElem?_getD]
      rw [List.getElem?_set_self hlt, Option.getD_some, List.getElem?_set_ne hy]
    · simp only [cellNat, setCellNat, List.getD_eq_getElem?_getD]
      rw [List.getElem?_set_ne hx]
  · unfold setCellNat
    rw [List.set_eq_of_length_le (Nat.le_of_not_lt hlt)]

/-- Setting a batch of cells to 1 leaves every cell outside the batch
unchanged. -/
theorem cellNat_foldl_not_mem :
    ∀ (cs : List (Nat × Nat)) (b : List (List Int)) (x y : Nat),
      (x, y) ∉ cs →
      cellNat (cs.foldl (fun b c => setCellNat b c.1 c.2 1) b) x y = cellNat b x y := by
  intro cs
  induction cs with
  | nil => intro b x y _; rfl
  | cons d rest ih =>
    intro b x y hmem
    have hd : (x, y) ≠ d := fun hc => hmem (by rw [hc]; exact List.mem_cons_self d rest)
    have hrest : (x, y) ∉ rest := fun hc => hmem (List.mem_cons_of_mem d hc)
    rw [List.foldl_cons, ih _ _ _ hrest, cellNat_setCellNat_ne _ _ hd]

/-- Setting a batch of in-range cells to 1 makes every cell of the batch
hold 1 afterwards. -/
theorem cellNat_foldl_mem {w : Nat} :
    ∀ (cs : List (Nat × Nat)) (b : List (List Int)),
      (∀ r ∈ b, r.length = w) →
      (∀ c ∈ cs, c.1 < b.length ∧ c.2 < w) →
      ∀ c ∈ cs, cellNat (cs.foldl (fun b c => setCellNat b c.1 c.2 1) b) c.1 c.2 = 1 := by
  intro cs
  induction cs with
  | nil => intro b _ _ c hc; cases hc
  | cons d rest ih =>
    intro b hw hbound c hc
    have hwb : ∀ r ∈ setCellNat b d.1 d.2 1, r.length = w := rows_setCellNat hw d.1 d.2 1
    have hlb : (setCellNat b d.1 d.2 1).length = b.length := length_setCellNat b d.1 d.2 1
    rw [List.foldl_cons]
    by_cases hcr : c ∈ rest
    · exact ih (setCellNat b d.1 d.2 1) hwb
        (fun e he => by rw [hlb]; exact hbound e (List.mem_cons_of_mem d he)) c hcr
    · have hcd : c = d := by
        rcases List.mem_cons.1 hc with h | h
        · exact h
        · exact absurd h hcr
      subst hcd
      have hcb := hbound c (List.mem_cons_self c rest)
      rw [cellNat_foldl_not_mem rest _ c.1 c.2 hcr]
      refine cellNat_setCellNat_self b 1 hcb.1 ?_
      have : (b.getD c.1 []).length = w := by
        refine hw _ ?_
        rw [List.getD_eq_getElem?_getD, List.getElem?_eq_getElem hcb.1]
        exact List.getElem_mem hcb.1
      rw [this]
      exact hcb.2

/-! ## Evaluation lemmas for the bounds test of make_move -/

theorem oobCheck_none_left (g : Game) (j : Option Int) :
    oobCheck g none j = .error (.typeError, g) := rfl

theorem oobCheck_some_none (g : Game) (x : Int) :
    oobCheck g (some x) none =
      if x < 0 ∨ (g.height : Int) - 1 < x then .ok true else .error (.typeError, g) := by
  by_cases h1 : x < 0
  · simp [oobCheck, pyLt, pyGt, h1]
  · by_cases h2 : (g.height : Int) - 1 < x
    · simp [oobCheck, pyLt, pyGt, h1, h2]
    · simp [oobCheck, pyLt, pyGt, h1, h2]

theorem oobCheck_some_some (g : Game) (x y : Int) :
    oobCheck g (some x) (some y) =
      .ok (decide (x < 0 ∨ (g.height : Int) - 1 < x ∨ y < 0 ∨ (g.width : Int) - 1 < y)) := by
  by_cases h1 : x < 0 <;> by_cases h2 : (g.height : Int) - 1 < x <;>
    by_cases h3 : y < 0 <;> by_cases h4 : (g.width : Int) - 1 < y <;>
    simp [oobCheck, pyLt, pyGt, h1, h2, h3, h4]

/-! ## Claim C9: flipping the grid twice restores it -/

/-- C9: for every grid, applying the board-flip operation twice in
succession yields a grid equal cell-for-cell to the original grid
(`flip_board` is an involution). -/
theorem flip_board_involution (b : List (List Int)) :
    flipBoard (flipBoard b) = b :=
  flipBoard_flipBoard b

/-! ## Claim C2: initial legal moves on the 4×4 board -/

/-- C2 (amended): on the freshly constructed 4×4 board the legal moves of
the first player are exactly (0,2), (1,3), (2,0), (3,1) — not the set
(0,1), (1,0), (2,3), (3,2) enumerated in the claim, which is the legal
move set of the second player. -/
theorem initial_legal_moves_4x4 :
    (gameOfInit 4 4).possible_moves = [(0, 2), (1, 3), (2, 0), (3, 1)] ∧
    dictGet (gameOfInit 4 4).move_dict 0 2 = [(1, 2)] ∧
    dictGet (gameOfInit 4 4).move_dict 1 3 = [(1, 2)] ∧
    dictGet (gameOfInit 4 4).move_dict 2 0 = [(2, 1)] ∧
    dictGet (gameOfInit 4 4).move_dict 3 1 = [(2, 1)] := by
  exact ⟨rfl, rfl, rfl, rfl, rfl⟩

/-- C2 counterexample: the enumerated set of the claim is wrong — (0,1)
is not a legal first move (its capture set is empty), nor are (1,0),
(2,3), (3,2), while (0,2) is legal. -/
theorem initial_legal_moves_4x4_claim_refuted :
    (0, 1) ∉ (gameOfInit 4 4).possible_moves ∧
    (1, 0) ∉ (gameOfInit 4 4).possible_moves ∧
    (2, 3) ∉ (gameOfInit 4 4).possible_moves ∧
    (3, 2) ∉ (gameOfInit 4 4).possible_moves ∧
    (0, 2) ∈ (gameOfInit 4 4).possible_moves := by decide

/-! ## Claim C1: a pass leaves the legal-move cache stale -/

/-- The state reached from the 4×4 opening by a single pass. -/
def passFromStart : Game := runMoves (gameOfInit 4 4) [(none, none)]

/-- C1 (refuted, code bug): a pass does not recompute the legal-move
mapping.  From the 4×4 opening, after `make_move(None, None)` the cached
`possible_moves` still lists the pre-pass player's moves, while the
mapping freshly recomputed from the flipped grid is different, so the
cache is stale. -/
theorem pass_leaves_cache_stale :
    makeMove (gameOfInit 4 4) none none = .ok passFromStart ∧
    passFromStart.possible_moves = [(0, 2), (1, 3), (2, 0), (3, 1)] ∧
    computePossible passFromStart.height passFromStart.width passFromStart.board =
      [(0, 1), (1, 0), (2, 3), (3, 2)] ∧
    passFromStart.possible_moves ≠
      computePossible passFromStart.height passFromStart.width passFromStart.board ∧
    passFromStart.move_dict ≠
      computeMoveDict passFromStart.height passFromStart.width passFromStart.board := by
  refine ⟨rfl, rfl, rfl, by decide, by decide⟩

/-! ## Claim C10: a lone None coordinate -/

/-- C10 (amended): a single `None` coordinate is never treated as a pass
and never mutates the state, but the error raised depends on the
short-circuited bounds test: `None` as the row always raises `TypeError`
(the comparison `i < 0` hits `None` first), while `None` as the column
raises `IndexError` when the row coordinate is out of bounds (the test
short-circuits to true before comparing `None`) and `TypeError`
otherwise. -/
theorem lone_none_coordinate (g : Game) (x : Int) :
    makeMove g none (some x) = .error (.typeError, g) ∧
    makeMove g (some x) none =
      .error
        ((if x < 0 ∨ (g.height : Int) - 1 < x then PyError.indexError else .typeError), g) := by
  constructor
  · rfl
  · by_cases h : x < 0 ∨ (g.height : Int) - 1 < x
    · simp only [makeMove, oobCheck_some_none, if_pos h]
    · simp only [makeMove, oobCheck_some_none, if_neg h]

/-- C10 counterexample: `make_move(-1, None)` raises `IndexError`
(out of bounds), not the type error the claim asserts for every call
with exactly one `None` coordinate. -/
theorem lone_none_oob_raises_index_error :
    makeMove (gameOfInit 4 4) (some (-1)) none =
      .error (.indexError, gameOfInit 4 4) := by rfl

/-! ## Evaluation lemma for check_winner -/

/-- `check_winner` in closed form: the two probe flips cancel, so the
final state differs from the input only by the cache recomputation, the
opponent probe tests the freshly computed moves of the flipped grid, and
the winner is the sign of the grid sum in the current orientation. -/
theorem checkWinner_eq (g : Game) :
    checkWinner g =
      if g.possible_moves = [] then
        (if computePossible g.height g.width (flipBoard g.board) = [] then
          ((true,
            if 0 < boardSum g.board then g.curr_player
            else if boardSum g.board < 0 then -g.curr_player else 0),
           updateMoveDict g)
         else ((false, 0), updateMoveDict g))
      else ((false, 0), g) := by
  unfold checkWinner
  by_cases hp : g.possible_moves = []
  · rw [if_pos hp, if_pos hp]
    simp only [updateMoveDict, flipBoard_flipBoard]
    split_ifs <;> rfl
  · rw [if_neg hp, if_neg hp]

/-! ## Claim C7: check_winner leaves the state unchanged -/

/-- C7 (amended): on every state whose legal-move cache is consistent
with the grid — in particular on every state where the cache was just
recomputed — `check_winner` leaves the persistent state (grid, current
player, and legal-move cache) exactly unchanged: the probe flips are
reverted and the final recomputation reproduces the cached values.  (On
a state with a stale empty cache, reachable through a pass, the final
recomputation changes the cache; see the counterexample.) -/
theorem check_winner_leaves_state_unchanged (g : Game)
    (hcons : updateMoveDict g = g) : (checkWinner g).2 = g := by
  rw [checkWinner_eq]
  by_cases hp : g.possible_moves = []
  · rw [if_pos hp]
    by_cases hop : computePossible g.height g.width (flipBoard g.board) = []
    · rw [if_pos hop]
      exact hcons
    · rw [if_neg hop]
      exact hcons
  · rw [if_neg hp]

/-- Witness for C7: the freshly constructed 4×4 game has a consistent
cache, and `check_winner` returns it unchanged. -/
theorem check_winner_leaves_state_unchanged_witness :
    updateMoveDict (gameOfInit 4 4) = gameOfInit 4 4 ∧
    (checkWinner (gameOfInit 4 4)).2 = gameOfInit 4 4 :=
  ⟨by decide, check_winner_leaves_state_unchanged (gameOfInit 4 4) (by decide)⟩

/-- The legal coordinate moves leading from the 4×4 opening to a
position in which the player to move has no legal move while the
opponent has four. -/
def stuckPath : List (Option Int × Option Int) :=
  [(some 0, some 2), (some 0, some 1), (some 2, some 0), (some 0, some 3)]

/-- The state reached by `stuckPath` followed by a pass: its cache is
the stuck player's (empty), while the new current player has moves. -/
def stuckPass : Game := runMoves (gameOfInit 4 4) (stuckPath ++ [(none, none)])

/-- C7 counterexample: the state `stuckPass` is reachable through the
public move API, yet `check_winner` changes its legal-move cache (the
grid and player are preserved, but the stale empty cache is replaced by
the freshly computed non-empty one), refuting the claim for every board
state. -/
theorem check_winner_mutates_stale_cache :
    applyMoves (gameOfInit 4 4) (stuckPath ++ [(none, none)]) = .ok stuckPass ∧
    (checkWinner stuckPass).2.board = stuckPass.board ∧
    (checkWinner stuckPass).2.curr_player = stuckPass.curr_player ∧
    (checkWinner stuckPass).2.move_dict ≠ stuckPass.move_dict ∧
    (checkWinner stuckPass).2.possible_moves ≠ stuckPass.possible_moves := by
  refine ⟨by decide, by decide, by decide, by decide, by decide⟩

/-! ## Claim C6: the three outcomes of check_winner -/

/-- C6 (amended): on every state whose legal-move cache is consistent
with the grid, `check_winner` returns (false, 0) when the current player
has at least one legal move, returns (false, 0) when the current player
has none but the opponent has at least one, and returns (true, w) when
neither player has a legal move, where w is the current player's
identity if the orientation-relative grid sum is positive, the
opponent's if it is negative, and 0 (draw) if it is zero.  (On a
reachable state with a stale cache the first case fails; see the
counterexample.) -/
theorem check_winner_cases (g : Game) (hcons : updateMoveDict g = g) :
    (computePossible g.height g.width g.board ≠ [] → (checkWinner g).1 = (false, 0)) ∧
    (computePossible g.height g.width g.board = [] →
      computePossible g.height g.width (flipBoard g.board) ≠ [] →
      (checkWinner g).1 = (false, 0)) ∧
    (computePossible g.height g.width g.board = [] →
      computePossible g.height g.width (flipBoard g.board) = [] →
      (checkWinner g).1 = (true,
        if 0 < boardSum g.board then g.curr_player
        else if boardSum g.board < 0 then -g.curr_player else 0)) := by
  have hpm : g.possible_moves = computePossible g.height g.width g.board := by
    conv_lhs => rw [← hcons]
    rfl
  rw [checkWinner_eq, hpm]
  refine ⟨?_, ?_, ?_⟩
  · intro h1
    rw [if_neg h1]
  · intro h1 h2
    rw [if_pos h1, if_neg h2]
  · intro h1 h2
    rw [if_pos h1, if_pos h2]

/-- Witness for C6, covering all three cases: the fresh 4×4 opening
(current player has moves), the reachable stuck position (current player
has none, opponent has some), and the full 2×2 opening (neither player
has a move, and the game is a draw). -/
theorem check_winner_cases_witness :
    (updateMoveDict (gameOfInit 4 4) = gameOfInit 4 4 ∧
      computePossible 4 4 (gameOfInit 4 4).board ≠ [] ∧
      (checkWinner (gameOfInit 4 4)).1 = (false, 0)) ∧
    (updateMoveDict (runMoves (gameOfInit 4 4) stuckPath) =
        runMoves (gameOfInit 4 4) stuckPath ∧
      computePossible 4 4 (runMoves (gameOfInit 4 4) stuckPath).board = [] ∧
      computePossible 4 4 (flipBoard (runMoves (gameOfInit 4 4) stuckPath).board) ≠ [] ∧
      (checkWinner (runMoves (gameOfInit 4 4) stuckPath)).1 = (false, 0)) ∧
    (updateMoveDict (gameOfInit 2 2) = gameOfInit 2 2 ∧
      computePossible 2 2 (gameOfInit 2 2).board = [] ∧
      computePossible 2 2 (flipBoard (gameOfInit 2 2).board) = [] ∧
      (checkWinner (gameOfInit 2 2)).1 = (true, 0)) := by
  refine ⟨⟨by decide, by decide, ?_⟩, ⟨by decide, by decide, by decide, ?_⟩,
    ⟨by decide, by decide, by decide, ?_⟩⟩
  · exact (check_winner_cases (gameOfInit 4 4) (by decide)).1 (by decide)
  · exact (check_winner_cases (runMoves (gameOfInit 4 4) stuckPath) (by decide)).2.1
      (by decide) (by decide)
  · have h := (check_winner_cases (gameOfInit 2 2) (by decide)).2.2 (by decide) (by decide)
    rw [h]
    decide

/-- C6 counterexample: at the reachable state `stuckPass` the current
player has legal moves (freshly computed, four of them), yet
`check_winner` reports the game as over — because the stale empty cache
makes it probe the previous player (who is stuck) as the opponent. -/
theorem check_winner_false_positive :
    applyMoves (gameOfInit 4 4) (stuckPath ++ [(none, none)]) = .ok stuckPass ∧
    computePossible stuckPass.height stuckPass.width stuckPass.board =
      [(2, 3), (3, 0), (3, 1), (3, 2)] ∧
    (checkWinner stuckPass).1.1 = true := by
  refine ⟨by decide, by decide, by decide⟩

/-! ## Claim C8: double pass with no legal moves ends the game -/

/-- Every cell of the grid holds one of the three legal cell values. -/
def cellsValid (b : List (List Int)) : Prop :=
  ∀ r ∈ b, ∀ v ∈ r, v = 1 ∨ v = -1 ∨ v = 0

instance (b : List (List Int)) : Decidable (cellsValid b) := by
  unfold cellsValid
  infer_instance

theorem row_sum_eq_counts {r : List Int} (hr : ∀ v ∈ r, v = 1 ∨ v = -1 ∨ v = 0) :
    r.sum = (r.count 1 : Int) - (r.count (-1) : Int) := by
  induction r with
  | nil => simp
  | cons v t ih =>
    have hv := hr v (List.mem_cons_self v t)
    have ht := ih (fun u hu => hr u (List.mem_cons_of_mem v hu))
    rcases hv with h | h | h <;> subst h <;>
      simp [List.count_cons, List.sum_cons, ht] <;> push_cast <;> ring

theorem boardSum_eq_counts {b : List (List Int)} (hb : cellsValid b) :
    boardSum b = (countMine b : Int) - (countTheirs b : Int) := by
  induction b with
  | nil => simp [boardSum, countMine, countTheirs]
  | cons r t ih =>
    have h1 := row_sum_eq_counts (hb r (List.mem_cons_self r t))
    have h2 := ih (fun s hs v hv => hb s (List.mem_cons_of_mem r hs) v hv)
    simp only [boardSum, countMine, countTheirs, List.map_cons, List.sum_cons] at h2 ⊢
    push_cast
    push_cast at h2
    omega

/-- C8: from any state whose cached move list is empty and in which
neither the current player nor the opponent has any (freshly computed)
legal move, passing twice succeeds and `check_winner` then reports the
game over, with the winner decided by the piece counts in the starting
orientation: the (restored) current player wins if they hold more
pieces, the opponent wins if fewer, and equal counts give a draw. -/
theorem double_pass_terminal (g : Game) (hv : cellsValid g.board)
    (hpm : g.possible_moves = [])
    (hcur : computePossible g.height g.width g.board = [])
    (hopp : computePossible g.height g.width (flipBoard g.board) = []) :
    ∃ s1 s2, makeMove g none none = .ok s1 ∧ makeMove s1 none none = .ok s2 ∧
      s2.board = g.board ∧ s2.curr_player = g.curr_player ∧
      (checkWinner s2).1 = (true,
        if countTheirs g.board < countMine g.board then g.curr_player
        else if countMine g.board < countTheirs g.board then -g.curr_player
        else 0) := by
  refine ⟨_, _, rfl, rfl, ?_, ?_, ?_⟩
  · exact flipBoard_flipBoard g.board
  · show - -g.curr_player = g.curr_player
    exact neg_neg g.curr_player
  · rw [checkWinner_eq]
    simp only [hpm, flipBoard_flipBoard, hopp, boardSum_eq_counts hv, neg_neg,
      if_true, eq_self_iff_true]
    split_ifs <;> first | rfl | omega

/-- Witness for C8: on the full 2×2 opening board neither player has a
move; two passes later `check_winner` reports a draw (two pieces each). -/
theorem double_pass_terminal_witness :
    cellsValid (gameOfInit 2 2).board ∧
    (gameOfInit 2 2).possible_moves = [] ∧
    computePossible 2 2 (gameOfInit 2 2).board = [] ∧
    computePossible 2 2 (flipBoard (gameOfInit 2 2).board) = [] ∧
    ∃ s1 s2, makeMove (gameOfInit 2 2) none none = .ok s1 ∧
      makeMove s1 none none = .ok s2 ∧
      s2.board = (gameOfInit 2 2).board ∧
      s2.curr_player = (gameOfInit 2 2).curr_player ∧
      (checkWinner s2).1 = (true,
        if countTheirs (gameOfInit 2 2).board < countMine (gameOfInit 2 2).board
          then (gameOfInit 2 2).curr_player
        else if countMine (gameOfInit 2 2).board < countTheirs (gameOfInit 2 2).board
          then -(gameOfInit 2 2).curr_player
        else 0) :=
  ⟨by decide, by decide, by decide, by decide,
    double_pass_terminal (gameOfInit 2 2) (by decide) (by decide) (by decide) (by decide)⟩

/-! ## Claim C4: coordinate-move failures leave the state unchanged -/

/-- C4: for every state and coordinate move, a coordinate outside
[0,height)×[0,width) raises `IndexError` (OutOfBounds), and an in-bounds
coordinate whose cached capture set is empty raises `ValueError`
(IllegalMove); in both failing cases the raise happens before any
mutation, so the error carries the state exactly unchanged (grid,
current player, and legal-move cache). -/
theorem coordinate_move_failures (g : Game) (i j : Int) :
    ((i < 0 ∨ (g.height : Int) - 1 < i ∨ j < 0 ∨ (g.width : Int) - 1 < j) →
      makeMove g (some i) (some j) = .error (.indexError, g)) ∧
    (0 ≤ i → i ≤ (g.height : Int) - 1 → 0 ≤ j → j ≤ (g.width : Int) - 1 →
      dictGet g.move_dict i.toNat j.toNat = [] →
      makeMove g (some i) (some j) = .error (.valueError, g)) := by
  constructor
  · intro h
    simp only [makeMove, oobCheck_some_some, decide_eq_true h]
  · intro h0 h1 h2 h3 hdict
    have hC : ¬(i < 0 ∨ (g.height : Int) - 1 < i ∨ j < 0 ∨ (g.width : Int) - 1 < j) := by
      push_neg
      exact ⟨h0, h1, h2, h3⟩
    simp only [makeMove, oobCheck_some_some, decide_eq_false hC, hdict, if_true]

/-- Witness for C4: on the 4×4 opening, the out-of-bounds move (7, 0)
raises `IndexError` and the in-bounds move (0, 0), whose capture set is
empty, raises `ValueError`; both errors carry the unchanged state. -/
theorem coordinate_move_failures_witness :
    ((7 : Int) < 0 ∨ ((gameOfInit 4 4).height : Int) - 1 < 7 ∨ (0 : Int) < 0 ∨
        ((gameOfInit 4 4).width : Int) - 1 < 0) ∧
    makeMove (gameOfInit 4 4) (some 7) (some 0) = .error (.indexError, gameOfInit 4 4) ∧
    dictGet (gameOfInit 4 4).move_dict 0 0 = [] ∧
    makeMove (gameOfInit 4 4) (some 0) (some 0) = .error (.valueError, gameOfInit 4 4) :=
  ⟨by decide, (coordinate_move_failures (gameOfInit 4 4) 7 0).1 (by decide),
    by decide, (coordinate_move_failures (gameOfInit 4 4) 0 0).2 (by decide) (by decide)
      (by decide) (by decide) (by decide)⟩

/-! ## Claim C5: applying a legal move flips the capture set -/

/-- C5: for every well-formed state and every coordinate whose cached
capture set is non-empty (i.e. every coordinate in `legal_moves`),
`make_move` succeeds, the current player toggles, and in the new
(post-flip) orientation the target cell and every cell of the pre-move
capture set hold `Theirs` (-1). -/
theorem apply_legal_move (g : Game) (i j : Nat)
    (hb : g.board.length = g.height) (hrow : ∀ r ∈ g.board, r.length = g.width)
    (hi : i < g.height) (hj : j < g.width)
    (hcaps : dictGet g.move_dict i j ≠ [])
    (hbound : ∀ c ∈ dictGet g.move_dict i j, c.1 < g.height ∧ c.2 < g.width) :
    ∃ g2, makeMove g (some (i : Int)) (some (j : Int)) = .ok g2 ∧
      g2.curr_player = -g.curr_player ∧
      cellNat g2.board i j = -1 ∧
      ∀ c ∈ dictGet g.move_dict i j, cellNat g2.board c.1 c.2 = -1 := by
  have hC : ¬(((i : Nat) : Int) < 0 ∨ (g.height : Int) - 1 < ((i : Nat) : Int) ∨
      ((j : Nat) : Int) < 0 ∨ (g.width : Int) - 1 < ((j : Nat) : Int)) := by
    push_neg
    refine ⟨by omega, by omega, by omega, by omega⟩
  have hrow1 : ∀ r ∈ setCellNat g.board i j 1, r.length = g.width :=
    rows_setCellNat hrow i j 1
  have hlen1 : (setCellNat g.board i j 1).length = g.board.length :=
    length_setCellNat g.board i j 1
  have hred : makeMove g (some (i : Int)) (some (j : Int)) =
      .ok { updateMoveDict { g with board := flipBoard ((dictGet g.move_dict i j).foldl
              (fun b c => setCellNat b c.1 c.2 1) (setCellNat g.board i j 1)) }
            with curr_player := -g.curr_player } := by
    simp only [makeMove, oobCheck_some_some, decide_eq_false hC, Int.toNat_natCast]
    rw [if_neg hcaps]
  refine ⟨_, hred, rfl, ?_, ?_⟩
  · simp only [updateMoveDict]
    rw [cellNat_flipBoard]
    by_cases hmem : (i, j) ∈ dictGet g.move_dict i j
    · rw [cellNat_foldl_mem (dictGet g.move_dict i j) (setCellNat g.board i j 1) hrow1
        (fun c hc => by rw [hlen1, hb]; exact ⟨(hbound c hc).1, (hbound c hc).2⟩)
        (i, j) hmem]
    · have hyrow : j < (g.board.getD i []).length := by
        have hmemb : (g.board.getD i []) ∈ g.board := by
          rw [List.getD_eq_getElem?_getD, List.getElem?_eq_getElem (by omega)]
          exact List.getElem_mem (by omega)
        rw [hrow _ hmemb]
        exact hj
      rw [cellNat_foldl_not_mem (dictGet g.move_dict i j) (setCellNat g.board i j 1) i j hmem,
        cellNat_setCellNat_self g.board 1 (by omega) hyrow]
  · intro c hc
    simp only [updateMoveDict]
    rw [cellNat_flipBoard]
    rw [cellNat_foldl_mem (dictGet g.move_dict i j) (setCellNat g.board i j 1) hrow1
      (fun e he => by rw [hlen1, hb]; exact ⟨(hbound e he).1, (hbound e he).2⟩) c hc]

/-- Witness for C5: on the 4×4 opening the move (0, 2) is legal with
capture set [(1, 2)]; applying it toggles the player and leaves both
(0, 2) and (1, 2) holding -1 in the new orientation. -/
theorem apply_legal_move_witness :
    (gameOfInit 4 4).board.length = (gameOfInit 4 4).height ∧
    (∀ r ∈ (gameOfInit 4 4).board, r.length = (gameOfInit 4 4).width) ∧
    0 < (gameOfInit 4 4).height ∧ 2 < (gameOfInit 4 4).width ∧
    dictGet (gameOfInit 4 4).move_dict 0 2 ≠ [] ∧
    (∀ c ∈ dictGet (gameOfInit 4 4).move_dict 0 2,
      c.1 < (gameOfInit 4 4).height ∧ c.2 < (gameOfInit 4 4).width) ∧
    ∃ g2, makeMove (gameOfInit 4 4) (some 0) (some 2) = .ok g2 ∧
      g2.curr_player = -(gameOfInit 4 4).curr_player ∧
      cellNat g2.board 0 2 = -1 ∧
      ∀ c ∈ dictGet (gameOfInit 4 4).move_dict 0 2, cellNat g2.board c.1 c.2 = -1 :=
  ⟨by decide, by decide, by decide, by decide, by decide, by decide,
    apply_legal_move (gameOfInit 4 4) 0 2 (by decide) (by decide) (by decide) (by decide)
      (by decide) (by decide)⟩

/-! ## Claim C3: construction -/

theorem getD_replicate {α : Type} {n i : Nat} (x d : α) (h : i < n) :
    (List.replicate n x).getD i d = x := by
  rw [List.getD_eq_getElem?_getD, List.getElem?_replicate, if_pos h, Option.getD_some]

theorem getD_set_self {α : Type} {b : List α} {i : Nat} (r d : α) (h : i < b.length) :
    (b.set i r).getD i d = r := by
  rw [List.getD_eq_getElem?_getD, List.getElem?_set_self h, Option.getD_some]

theorem getD_set_ne {α : Type} {b : List α} {i x : Nat} (r d : α) (h : i ≠ x) :
    (b.set i r).getD x d = b.getD x d := by
  rw [List.getD_eq_getElem?_getD, List.getElem?_set_ne h, List.getD_eq_getElem?_getD]

theorem pyIndex_of_nonneg {m : Nat} {k : Int} (h0 : 0 ≤ k) (h1 : k < (m : Int)) :
    pyIndex m k = some k.toNat := by
  simp only [pyIndex]
  rw [if_neg (by omega : ¬k < 0), if_pos (⟨h0, h1⟩ : 0 ≤ k ∧ k < (m : Int))]

theorem pyIndex_zero_len (k : Int) : pyIndex 0 k = none := by
  simp only [pyIndex]
  by_cases hk : k < 0
  · rw [if_pos hk, if_neg (by omega)]
  · rw [if_neg hk, if_neg (by omega)]

theorem setCellPy_pos {b : List (List Int)} {r c : Int} (v : Int)
    (hr0 : 0 ≤ r) (hr : r < (b.length : Int)) (hc0 : 0 ≤ c)
    (hc : c < (((b.getD r.toNat []).length : Nat) : Int)) :
    setCellPy b r c v = some (b.set r.toNat ((b.getD r.toNat []).set c.toNat v)) := by
  simp only [setCellPy, pyIndex_of_nonneg hr0 hr, pyIndex_of_nonneg hc0 hc]

/-- The grid a successful `__init__` builds on an `m × n` board whose
centre row index is `a = m/2` and centre column index is `c = n/2`: all
empty except the four centre cells, written as the exact chain of four
assignments the source performs. -/
def board4 (m n a c : Nat) : List (List Int) :=
  ((((List.replicate m (List.replicate n (0 : Int))).set (a - 1)
      ((List.replicate n (0 : Int)).set (c - 1) 1)).set a
      ((List.replicate n (0 : Int)).set (c - 1) (-1))).set (a - 1)
      (((List.replicate n (0 : Int)).set (c - 1) 1).set c (-1))).set a
      (((List.replicate n (0 : Int)).set (c - 1) (-1)).set c 1)

theorem cellNat_board4 {m n a c : Nat} (ha : 1 ≤ a) (hc : 1 ≤ c) (hm : 2 * a = m)
    (hn : 2 * c = n) (x y : Nat) (hx : x < m) (hy : y < n) :
    cellNat (board4 m n a c) x y =
      if (x = a - 1 ∧ y = c - 1) ∨ (x = a ∧ y = c) then 1
      else if (x = a ∧ y = c - 1) ∨ (x = a - 1 ∧ y = c) then -1
      else 0 := by
  unfold board4 cellNat
  by_cases hxa : x = a
  · subst hxa
    rw [getD_set_self _ _ (by simp only [List.length_set, List.length_replicate]; omega)]
    by_cases hyc : y = c
    · subst hyc
      rw [getD_set_self _ _ (by simp only [List.length_set, List.length_replicate]; omega)]
      rw [if_pos (Or.inr ⟨rfl, rfl⟩)]
    · rw [getD_set_ne _ _ (fun hcy => hyc hcy.symm)]
      by_cases hyc1 : y = c - 1
      · subst hyc1
        rw [getD_set_self _ _ (by simp only [List.length_replicate]; omega)]
        rw [if_neg (by omega), if_pos (Or.inl ⟨rfl, rfl⟩)]
      · rw [getD_set_ne _ _ (fun hcy => hyc1 hcy.symm), getD_replicate _ _ hy]
        rw [if_neg (by omega), if_neg (by omega)]
  · by_cases hxa1 : x = a - 1
    · subst hxa1
      rw [getD_set_ne _ _ (fun hcy => hxa hcy.symm),
        getD_set_self _ _ (by simp only [List.length_set, List.length_replicate]; omega)]
      by_cases hyc : y = c
      · subst hyc
        rw [getD_set_self _ _ (by simp only [List.length_set, List.length_replicate]; omega)]
        rw [if_neg (by omega), if_pos (Or.inr ⟨rfl, rfl⟩)]
      · rw [getD_set_ne _ _ (fun hcy => hyc hcy.symm)]
        by_cases hyc1 : y = c - 1
        · subst hyc1
          rw [getD_set_self _ _ (by simp only [List.length_replicate]; omega)]
          rw [if_pos (Or.inl ⟨rfl, rfl⟩)]
        · rw [getD_set_ne _ _ (fun hcy => hyc1 hcy.symm), getD_replicate _ _ hy]
          rw [if_neg (by omega), if_neg (by omega)]
    · rw [getD_set_ne _ _ (fun hcy => hxa hcy.symm),
        getD_set_ne _ _ (fun hcy => hxa1 hcy.symm),
        getD_set_ne _ _ (fun hcy => hxa hcy.symm),
        getD_set_ne _ _ (fun hcy => hxa1 hcy.symm),
        getD_replicate _ _ hx, getD_replicate _ _ hy]
      rw [if_neg (by omega), if_neg (by omega)]

/-- On positive even dimensions the four centre-piece assignments of
`__init__` all succeed and produce exactly the `board4` grid. -/
theorem placeInitial_pos {h w k l : Int} (hk : h = 2 * k) (hl : w = 2 * l)
    (hk1 : 1 ≤ k) (hl1 : 1 ≤ l) :
    placeInitial h w = some (board4 h.toNat w.toNat k.toNat l.toNat) := by
  have hfd : h.fdiv 2 = k := by
    rw [hk]
    exact Int.mul_fdiv_cancel_left _ (by norm_num)
  have hwfd : w.fdiv 2 = l := by
    rw [hl]
    exact Int.mul_fdiv_cancel_left _ (by norm_num)
  have hk1n : (k - 1).toNat = k.toNat - 1 := by omega
  have hl1n : (l - 1).toNat = l.toNat - 1 := by omega
  have hg1 : (List.replicate h.toNat (List.replicate w.toNat (0 : Int))).getD (k - 1).toNat []
      = List.replicate w.toNat 0 := getD_replicate _ _ (by omega)
  have e1 : setCellPy (List.replicate h.toNat (List.replicate w.toNat (0 : Int)))
      (k - 1) (l - 1) 1
      = some ((List.replicate h.toNat (List.replicate w.toNat (0 : Int))).set (k.toNat - 1)
          ((List.replicate w.toNat (0 : Int)).set (l.toNat - 1) 1)) := by
    rw [setCellPy_pos 1 (by omega) (by simp only [List.length_replicate]; omega) (by omega)
        (by rw [hg1]; simp only [List.length_replicate]; omega),
      hg1, hk1n, hl1n]
  have hg2 : (((List.replicate h.toNat (List.replicate w.toNat (0 : Int))).set (k.toNat - 1)
        ((List.replicate w.toNat (0 : Int)).set (l.toNat - 1) 1))).getD k.toNat []
      = List.replicate w.toNat 0 := by
    rw [getD_set_ne _ _ (by omega), getD_replicate _ _ (by omega)]
  have e2 : setCellPy ((List.replicate h.toNat (List.replicate w.toNat (0 : Int))).set
        (k.toNat - 1) ((List.replicate w.toNat (0 : Int)).set (l.toNat - 1) 1))
      k (l - 1) (-1)
      = some (((List.replicate h.toNat (List.replicate w.toNat (0 : Int))).set (k.toNat - 1)
          ((List.replicate w.toNat (0 : Int)).set (l.toNat - 1) 1)).set k.toNat
          ((List.replicate w.toNat (0 : Int)).set (l.toNat - 1) (-1))) := by
    rw [setCellPy_pos (-1) (by omega)
        (by simp only [List.length_set, List.length_replicate]; omega) (by omega)
        (by rw [hg2]; simp only [List.length_replicate]; omega),
      hg2, hl1n]
  have hg3 : ((((List.replicate h.toNat (List.replicate w.toNat (0 : Int))).set (k.toNat - 1)
        ((List.replicate w.toNat (0 : Int)).set (l.toNat - 1) 1)).set k.toNat
        ((List.replicate w.toNat (0 : Int)).set (l.toNat - 1) (-1)))).getD (k - 1).toNat []
      = (List.replicate w.toNat (0 : Int)).set (l.toNat - 1) 1 := by
    rw [hk1n, getD_set_ne _ _ (by omega),
      getD_set_self _ _ (by simp only [List.length_replicate]; omega)]
  have e3 : setCellPy (((List.replicate h.toNat (List.replicate w.toNat (0 : Int))).set
        (k.toNat - 1) ((List.replicate w.toNat (0 : Int)).set (l.toNat - 1) 1)).set k.toNat
        ((List.replicate w.toNat (0 : Int)).set (l.toNat - 1) (-1)))
      (k - 1) l (-1)
      = some ((((List.replicate h.toNat (List.replicate w.toNat (0 : Int))).set (k.toNat - 1)
          ((List.replicate w.toNat (0 : Int)).set (l.toNat - 1) 1)).set k.toNat
          ((List.replicate w.toNat (0 : Int)).set (l.toNat - 1) (-1))).set (k.toNat - 1)
          (((List.replicate w.toNat (0 : Int)).set (l.toNat - 1) 1).set l.toNat (-1))) := by
    rw [setCellPy_pos (-1) (by omega)
        (by simp only [List.length_set, List.length_replicate]; omega) (by omega)
        (by rw [hg3]; simp only [List.length_set, List.length_replicate]; omega),
      hg3, hk1n]
  have hg4 : (((((List.replicate h.toNat (List.replicate w.toNat (0 : Int))).set (k.toNat - 1)
        ((List.replicate w.toNat (0 : Int)).set (l.toNat - 1) 1)).set k.toNat
        ((List.replicate w.toNat (0 : Int)).set (l.toNat - 1) (-1))).set (k.toNat - 1)
        (((List.replicate w.toNat (0 : Int)).set (l.toNat - 1) 1).set l.toNat (-1)))).getD
        k.toNat []
      = (List.replicate w.toNat (0 : Int)).set (l.toNat - 1) (-1) := by
    rw [getD_set_ne _ _ (by omega),
      getD_set_self _ _ (by simp only [List.length_set, List.length_replicate]; omega)]
  have e4 : setCellPy ((((List.replicate h.toNat (List.replicate w.toNat (0 : Int))).set
        (k.toNat - 1) ((List.replicate w.toNat (0 : Int)).set (l.toNat - 1) 1)).set k.toNat
        ((List.replicate w.toNat (0 : Int)).set (l.toNat - 1) (-1))).set (k.toNat - 1)
        (((List.replicate w.toNat (0 : Int)).set (l.toNat - 1) 1).set l.toNat (-1)))
      k l 1
      = some (((((List.replicate h.toNat (List.replicate w.toNat (0 : Int))).set (k.toNat - 1)
          ((List.replicate w.toNat (0 : Int)).set (l.toNat - 1) 1)).set k.toNat
          ((List.replicate w.toNat (0 : Int)).set (l.toNat - 1) (-1))).set (k.toNat - 1)
          (((List.replicate w.toNat (0 : Int)).set (l.toNat - 1) 1).set l.toNat (-1))).set
          k.toNat (((List.replicate w.toNat (0 : Int)).set (l.toNat - 1) (-1)).set l.toNat 1)) := by
    rw [setCellPy_pos 1 (by omega)
        (by simp only [List.length_set, List.length_replicate]; omega) (by omega)
        (by rw [hg4]; simp only [List.length_set, List.length_replicate]; omega),
      hg4]
  simp only [placeInitial, hfd, hwfd, e1, e2, e3, e4]
  rfl

/-- The set of in-range coordinates whose cell holds value `v`. -/
def cellsWith (g : Game) (v : Int) : Finset (Nat × Nat) :=
  (Finset.range g.height ×ˢ Finset.range g.width).filter fun p => cellNat g.board p.1 p.2 = v

/-- The set of in-range coordinates whose cell is non-empty. -/
def occupiedCells (g : Game) : Finset (Nat × Nat) :=
  (Finset.range g.height ×ˢ Finset.range g.width).filter fun p => cellNat g.board p.1 p.2 ≠ 0

/-- On a `board4` grid the Mine cells are the two diagonal centre cells
`(a-1, c-1)` and `(a, c)`, the Theirs cells are the other two diagonal
centre cells, every other cell is empty, and the counts are 2, 2 and 4. -/
theorem board4_cells {m n a c : Nat} (ha : 1 ≤ a) (hc : 1 ≤ c) (hm : 2 * a = m)
    (hn : 2 * c = n) (g : Game)
    (hh : g.height = m) (hw : g.width = n) (hb : g.board = board4 m n a c) :
    cellsWith g 1 = {(a - 1, c - 1), (a, c)} ∧
    cellsWith g (-1) = {(a, c - 1), (a - 1, c)} ∧
    occupiedCells g = cellsWith g 1 ∪ cellsWith g (-1) ∧
    (cellsWith g 1).card = 2 ∧ (cellsWith g (-1)).card = 2 ∧
    (occupiedCells g).card = 4 := by
  have hcw1 : cellsWith g 1 = {(a - 1, c - 1), (a, c)} := by
    unfold cellsWith
    rw [hh, hw, hb]
    apply Finset.ext
    rintro ⟨x, y⟩
    simp only [Finset.mem_filter, Finset.mem_product, Finset.mem_range, Finset.mem_insert,
      Finset.mem_singleton, Prod.mk.injEq]
    constructor
    · rintro ⟨⟨hx, hy⟩, hcell⟩
      rw [cellNat_board4 ha hc hm hn x y hx hy] at hcell
      split_ifs at hcell <;> omega
    · rintro (⟨hx, hy⟩ | ⟨hx, hy⟩) <;> subst hx <;> subst hy
      · refine ⟨⟨by omega, by omega⟩, ?_⟩
        rw [cellNat_board4 ha hc hm hn _ _ (by omega) (by omega),
          if_pos (Or.inl ⟨rfl, rfl⟩)]
      · refine ⟨⟨by omega, by omega⟩, ?_⟩
        rw [cellNat_board4 ha hc hm hn _ _ (by omega) (by omega),
          if_pos (Or.inr ⟨rfl, rfl⟩)]
  have hcw2 : cellsWith g (-1) = {(a, c - 1), (a - 1, c)} := by
    unfold cellsWith
    rw [hh, hw, hb]
    apply Finset.ext
    rintro ⟨x, y⟩
    simp only [Finset.mem_filter, Finset.mem_product, Finset.mem_range, Finset.mem_insert,
      Finset.mem_singleton, Prod.mk.injEq]
    constructor
    · rintro ⟨⟨hx, hy⟩, hcell⟩
      rw [cellNat_board4 ha hc hm hn x y hx hy] at hcell
      split_ifs at hcell <;> omega
    · rintro (⟨hx, hy⟩ | ⟨hx, hy⟩) <;> subst hx <;> subst hy
      · refine ⟨⟨by omega, by omega⟩, ?_⟩
        rw [cellNat_board4 ha hc hm hn _ _ (by omega) (by omega),
          if_neg (by omega), if_pos (Or.inl ⟨rfl, rfl⟩)]
      · refine ⟨⟨by omega, by omega⟩, ?_⟩
        rw [cellNat_board4 ha hc hm hn _ _ (by omega) (by omega),
          if_neg (by omega), if_pos (Or.inr ⟨rfl, rfl⟩)]
  have hocc : occupiedCells g = cellsWith g 1 ∪ cellsWith g (-1) := by
    unfold occupiedCells cellsWith
    rw [← Finset.filter_or]
    refine Finset.filter_congr ?_
    rintro ⟨x, y⟩ hmem
    rw [hh, hw] at hmem
    simp only [Finset.mem_product, Finset.mem_range] at hmem
    rw [hb, cellNat_board4 ha hc hm hn x y hmem.1 hmem.2]
    split_ifs <;> simp
  have hc1 : ({(a - 1, c - 1), (a, c)} : Finset (Nat × Nat)).card = 2 := by
    rw [Finset.card_insert_of_not_mem (by
        intro hmem
        rw [Finset.mem_singleton, Prod.mk.injEq] at hmem
        omega),
      Finset.card_singleton]
  have hc2 : ({(a, c - 1), (a - 1, c)} : Finset (Nat × Nat)).card = 2 := by
    rw [Finset.card_insert_of_not_mem (by
        intro hmem
        rw [Finset.mem_singleton, Prod.mk.injEq] at hmem
        omega),
      Finset.card_singleton]
  have hdisj : Disjoint ({(a - 1, c - 1), (a, c)} : Finset (Nat × Nat))
      {(a, c - 1), (a - 1, c)} := by
    rw [Finset.disjoint_left]
    rintro ⟨x, y⟩ hp hq
    simp only [Finset.mem_insert, Finset.mem_singleton, Prod.mk.injEq] at hp hq
    omega
  refine ⟨hcw1, hcw2, hocc, by rw [hcw1]; exact hc1, by rw [hcw2]; exact hc2, ?_⟩
  rw [hocc, hcw1, hcw2, Finset.card_union_of_disjoint hdisj, hc1, hc2]

/-- C3 (amended): construction fails with the dimension `ValueError`
(InvalidDimensions) exactly when height or width is odd; for even
dimensions with a non-positive height or width it fails with an
`IndexError` instead (the dimension check passes and the centre-piece
assignment indexes a degenerate grid); and for every even positive
height and width it succeeds with exactly 4 non-empty cells — 2 Mine and
2 Theirs, placed as diagonally opposite same-type pairs at the four
centre cells. -/
theorem construction_cases (h w : Int) :
    (initGame h w = .error .valueError ↔ (h % 2 ≠ 0 ∨ w % 2 ≠ 0)) ∧
    (h % 2 = 0 → w % 2 = 0 → (h ≤ 0 ∨ w ≤ 0) → initGame h w = .error .indexError) ∧
    (h % 2 = 0 → w % 2 = 0 → 0 < h → 0 < w →
      ∃ g, initGame h w = .ok g ∧ g.height = h.toNat ∧ g.width = w.toNat ∧
        cellsWith g 1 = {((h.fdiv 2).toNat - 1, (w.fdiv 2).toNat - 1),
                         ((h.fdiv 2).toNat, (w.fdiv 2).toNat)} ∧
        cellsWith g (-1) = {((h.fdiv 2).toNat, (w.fdiv 2).toNat - 1),
                            ((h.fdiv 2).toNat - 1, (w.fdiv 2).toNat)} ∧
        occupiedCells g = cellsWith g 1 ∪ cellsWith g (-1) ∧
        (cellsWith g 1).card = 2 ∧ (cellsWith g (-1)).card = 2 ∧
        (occupiedCells g).card = 4) := by
  refine ⟨⟨?_, ?_⟩, ?_, ?_⟩
  · intro heq
    by_contra hodd
    push_neg at hodd
    rw [initGame, if_neg (by simp [hodd.1, hodd.2])] at heq
    cases hple : placeInitial h w with
    | none =>
      rw [hple] at heq
      exact absurd heq (by simp)
    | some b =>
      rw [hple] at heq
      exact absurd heq (by simp)
  · intro hodd
    rw [initGame, if_pos hodd]
  · intro h2 w2 hnp
    rw [initGame, if_neg (by simp [h2, w2])]
    by_cases hh : h ≤ 0
    · have ht0 : h.toNat = 0 := Int.toNat_of_nonpos hh
      have hpy0 : pyIndex h.toNat (h.fdiv 2 - 1) = none := by
        rw [ht0]
        exact pyIndex_zero_len _
      have hple : placeInitial h w = none := by
        simp only [placeInitial, setCellPy, List.length_replicate, hpy0]
      rw [hple]
    · have hw0 : w ≤ 0 := by
        rcases hnp with h1 | h1 <;> omega
      obtain ⟨k, hk⟩ : ∃ k, h = 2 * k := ⟨h / 2, by omega⟩
      have hk1 : 1 ≤ k := by omega
      have hfd : h.fdiv 2 = k := by
        rw [hk]
        exact Int.mul_fdiv_cancel_left _ (by norm_num)
      have hpy1 : pyIndex h.toNat (k - 1) = some (k - 1).toNat :=
        pyIndex_of_nonneg (by omega) (by omega)
      have hg1 : (List.replicate h.toNat (List.replicate w.toNat (0 : Int))).getD
          (k - 1).toNat [] = List.replicate w.toNat 0 := getD_replicate _ _ (by omega)
      have hpy2 : pyIndex w.toNat (w.fdiv 2 - 1) = none := by
        rw [Int.toNat_of_nonpos hw0]
        exact pyIndex_zero_len _
      have hple : placeInitial h w = none := by
        simp only [placeInitial, hfd, setCellPy, List.length_replicate, hpy1, hg1, hpy2]
      rw [hple]
  · intro h2 w2 hp hq
    obtain ⟨k, hk⟩ : ∃ k, h = 2 * k := ⟨h / 2, by omega⟩
    obtain ⟨l, hl⟩ : ∃ l, w = 2 * l := ⟨w / 2, by omega⟩
    have hk1 : 1 ≤ k := by omega
    have hl1 : 1 ≤ l := by omega
    have hfd : h.fdiv 2 = k := by
      rw [hk]
      exact Int.mul_fdiv_cancel_left _ (by norm_num)
    have hwfd : w.fdiv 2 = l := by
      rw [hl]
      exact Int.mul_fdiv_cancel_left _ (by norm_num)
    have hplace := placeInitial_pos hk hl hk1 hl1
    refine ⟨updateMoveDict
        ⟨h.toNat, w.toNat, board4 h.toNat w.toNat k.toNat l.toNat, 1,
          dict0 h.toNat w.toNat, []⟩, ?_, rfl, rfl, ?_⟩
    · rw [initGame, if_neg (by simp [h2, w2]), hplace]
    · rw [hfd, hwfd]
      exact @board4_cells h.toNat w.toNat k.toNat l.toNat (by omega) (by omega) (by omega)
        (by omega) _ rfl rfl rfl

/-- C3 counterexample: on the even but non-positive dimensions (0, 2)
construction fails with `IndexError`, not with the dimension
`ValueError` the claim requires for every non-positive size. -/
theorem construction_zero_height_not_invalid_dimensions :
    initGame 0 2 = .error .indexError ∧
    initGame 0 2 ≠ .error .valueError := by
  exact ⟨rfl, by decide⟩

/-- Witness for C3: (3, 4) is rejected with the dimension error, (0, 4)
fails with the index error, and (6, 4) succeeds with the four centre
pieces at rows 2-3, columns 1-2. -/
theorem construction_cases_witness :
    initGame 3 4 = .error .valueError ∧
    initGame 0 4 = .error .indexError ∧
    (∃ g, initGame 6 4 = .ok g ∧ g.height = (6 : Int).toNat ∧ g.width = (4 : Int).toNat ∧
      cellsWith g 1 = {(((6 : Int).fdiv 2).toNat - 1, ((4 : Int).fdiv 2).toNat - 1),
                       (((6 : Int).fdiv 2).toNat, ((4 : Int).fdiv 2).toNat)} ∧
      cellsWith g (-1) = {(((6 : Int).fdiv 2).toNat, ((4 : Int).fdiv 2).toNat - 1),
                          (((6 : Int).fdiv 2).toNat - 1, ((4 : Int).fdiv 2).toNat)} ∧
      occupiedCells g = cellsWith g 1 ∪ cellsWith g (-1) ∧
      (cellsWith g 1).card = 2 ∧ (cellsWith g (-1)).card = 2 ∧
      (occupiedCells g).card = 4) :=
  ⟨(construction_cases 3 4).1.mpr (by decide),
   (construction_cases 0 4).2.1 (by decide) (by decide) (by decide),
   (construction_cases 6 4).2.2 (by decide) (by decide) (by decide) (by decide)⟩
